import Mathlib

/-!
Verification of the LSP text-edit application engine (plugin/edit.py and
plugin/completion.py) against its specification.

The embedding models a document buffer as a list of characters.  LSP positions
are (line, column) pairs where the column is measured in UTF-16 code units; the
embedding identifies code points with UTF-16 code units (documents are
restricted to the basic multilingual plane), so `rowcol` and `rowcol_utf16`
coincide, exactly as they do on such documents in the host editor.
-/

/-- A document buffer: the sequence of characters of the view. -/
abbrev Doc := List Char

/-- Number of newline characters in a buffer (the index of the last row). -/
def countNL : Doc → Nat
  | [] => 0
  | c :: cs => (if c = '\n' then 1 else 0) + countNL cs

/-- Embeds `sublime.View.rowcol` / `rowcol_utf16` (identified on BMP documents):
the (row, col) of a buffer offset. -/
def rowcol (d : Doc) (offset : Nat) : Nat × Nat :=
  let pre := d.take offset
  (countNL pre, (pre.reverse.takeWhile (fun c => !(c == '\n'))).length)

/-- `sublime.View.rowcol_utf16`; coincides with `rowcol` on BMP documents. -/
def rowcol_utf16 (d : Doc) (offset : Nat) : Nat × Nat := rowcol d offset

/-- Buffer offset of the start of row `row` (scans for `row` newlines). -/
def lineStart : Doc → Nat → Nat
  | _, 0 => 0
  | [], _ => 0
  | c :: cs, r + 1 =>
    if c = '\n' then 1 + lineStart cs r else 1 + lineStart cs (r + 1)

/-- Embeds `sublime.View.text_point_utf16` (with the default, non-clamping
column behaviour): a row beyond the last row of the buffer clamps to the
buffer size; otherwise the offset is the start of the row plus the column,
clamped to the buffer size. -/
def text_point_utf16 (d : Doc) (row col : Nat) : Nat :=
  if countNL d < row then d.length
  else min (lineStart d row + col) d.length

/-- Embeds `sublime.Region`: a pair of buffer points, possibly reversed. -/
structure Region where
  a : Nat
  b : Nat
deriving DecidableEq

/-- `sublime.Region.begin()`: the smaller endpoint. -/
def Region.first (r : Region) : Nat := min r.a r.b

/-- `sublime.Region.end()`: the larger endpoint. -/
def Region.last (r : Region) : Nat := max r.a r.b

/-- `sublime.Region.empty()`: both endpoints coincide. -/
def Region.isEmpty (r : Region) : Bool := r.a == r.b

/-- Modelled from the spec: host buffer primitive (§6) - insert text at a
native position. -/
def viewInsert (d : Doc) (p : Nat) (s : List Char) : Doc :=
  d.take p ++ s ++ d.drop p

/-- Modelled from the spec: host buffer primitive (§6) - replace the span
covered by a region with the given text. -/
def viewReplace (d : Doc) (r : Region) (s : List Char) : Doc :=
  d.take r.first ++ s ++ d.drop r.last

/-- Modelled from the spec: host buffer primitive (§6) - delete the span
covered by a region. -/
def viewErase (d : Doc) (r : Region) : Doc :=
  d.take r.first ++ d.drop r.last

/-- Embeds `LspApplyDocumentEditCommand.apply_change` (edit.py lines 119-126):
empty region inserts, non-empty region with non-empty replacement replaces,
non-empty region with empty replacement erases. -/
def apply_change (d : Doc) (r : Region) (replacement : List Char) : Doc :=
  if r.isEmpty then viewInsert d r.a replacement
  else if 0 < replacement.length then viewReplace d r replacement
  else viewErase d r

/-- Embeds the `TextEdit` tuple from core (start, end, newText, version), as
unpacked at edit.py line 104. -/
structure TextEdit where
  start : Nat × Nat
  endPos : Nat × Nat
  newText : List Char
  version : Option Nat
deriving DecidableEq

/-- Ascending lexicographic order on the start position (line, then column). -/
def editLE (e f : TextEdit) : Prop :=
  e.start.1 < f.start.1 ∨ (e.start.1 = f.start.1 ∧ e.start.2 ≤ f.start.2)

instance : DecidableRel editLE := fun e f => by
  unfold editLE; infer_instance

instance : IsTotal TextEdit editLE := by
  constructor
  intro e f
  unfold editLE
  omega

instance : IsTrans TextEdit editLE := by
  constructor
  intro e f g hef hfg
  unfold editLE at hef hfg ⊢
  omega

/-- Modelled from the spec: `sort_by_application_order` (§4.1, imported from
the missing core module at edit.py line 3) - a stable, deterministic ascending
sort of the edits by range start position (line ascending, then column
ascending). -/
def sort_by_application_order (edits : List TextEdit) : List TextEdit :=
  List.insertionSort editLE edits

/-- The loop state of `LspApplyDocumentEditCommand.run`: the buffer, the
captured end-of-document row and column, and the debug log. -/
structure RunState where
  doc : Doc
  lastRow : Nat
  lastCol : Nat
  log : List String
deriving DecidableEq

/-- The debug message of edit.py line 106. -/
def debugMsg : String := "ignoring edit due to non-matching document version"

/-- The Python IndexError raised by evaluating the first character of an empty
replacement string at edit.py line 109. -/
def indexErrorMsg : String := "IndexError: string index out of range"

/-- Embeds edit.py line 108: the buffer region of an edit's abstract
line/UTF-16-column range on the current document. -/
def editRegion (d : Doc) (e : TextEdit) : Region :=
  ⟨text_point_utf16 d e.start.1 e.start.2,
   text_point_utf16 d e.endPos.1 e.endPos.2⟩

/-- Embeds edit.py lines 108-115: the branch on the edit's start row and the
application of the (possibly newline-prefixed) replacement.  The region
construction above embeds line 108. -/
def applyStep (st : RunState) (e : TextEdit) : Except String RunState :=
  let region : Region := editRegion st.doc e
  if st.lastRow < e.start.1 then
    match e.newText with
    | [] => Except.error indexErrorMsg
    | c :: rest =>
      if c = '\n' then
        Except.ok { st with doc := apply_change st.doc region (c :: rest) }
      else
        let d := apply_change st.doc region ('\n' :: c :: rest)
        let rc := rowcol d d.length
        Except.ok { doc := d, lastRow := rc.1, lastCol := rc.2, log := st.log }
  else
    Except.ok { st with doc := apply_change st.doc region e.newText }

/-- Embeds one iteration of the loop at edit.py lines 104-115: the version
guard (lines 105-107) followed by `applyStep`. -/
def processEdit (view_version : Nat) (st : RunState) (e : TextEdit) :
    Except String RunState :=
  match e.version with
  | some v =>
    if v ≠ view_version then Except.ok { st with log := debugMsg :: st.log }
    else applyStep st e
  | none => applyStep st e

/-- Runs `processEdit` over a list of edits, propagating the first error. -/
def runEdits (view_version : Nat) : RunState → List TextEdit → Except String RunState
  | st, [] => Except.ok st
  | st, e :: es =>
    match processEdit view_version st e with
    | Except.ok st' => runEdits view_version st' es
    | Except.error m => Except.error m

/-- Embeds `LspApplyDocumentEditCommand.run` (edit.py lines 101-115) at the
document level: capture the view version and the end-of-document position,
then process the edits sorted by application order, in reverse. -/
def apply_document_edit (view_version : Nat) (d : Doc) (changes : List TextEdit) :
    Except String RunState :=
  let rc := rowcol_utf16 d d.length
  runEdits view_version
    { doc := d, lastRow := rc.1, lastCol := rc.2, log := [] }
    ((sort_by_application_order changes).reverse)

example : apply_document_edit 0 ("abc".toList)
    [⟨(1, 0), (1, 0), "def".toList, none⟩] =
    Except.ok ⟨"abc\ndef".toList, 1, 3, []⟩ := by rfl

example : apply_document_edit 0 ("abc".toList)
    [⟨(1, 0), (1, 0), [], none⟩] = Except.error indexErrorMsg := by rfl

example : apply_document_edit 7 ("abc".toList)
    [⟨(0, 0), (0, 1), "X".toList, some 6⟩] =
    Except.ok ⟨"abc".toList, 0, 3, [debugMsg]⟩ := by rfl

/-!
The workspace-edit coordinator (edit.py lines 22-85) and the load listener
(lines 31-43).  The model tracks the observable effects of a call: the
`to_be_renamed` registry, how many times the completion callback has fired,
the status messages shown, the `lsp_apply_document_edit` command invocations
with their argument shapes, and the files the window was asked to open.
`os.path.samefile` (and the misspelt `os.path.same_file` at line 66) is
modelled as path equality - adequate when distinct paths denote distinct
files.  Python-level name-resolution accidents of the source (the missing
`os` and `Callable` imports, and that the module-level `to_be_renamed` global
is first written before line 81 first binds it) are set aside: the embedding
gives the statements of the function bodies their intended operational
reading, with the class attribute of line 33 as the registry's initial value.
-/

/-- Same-file path comparison (edit.py lines 41 and 66). -/
def samefile (p q : String) : Bool := p == q

/-- A value stored in the `to_be_renamed` registry.  `item` is a
`_RenameItem` (edit.py lines 22-28) holding the deferred edits and the shared
`run_callback_when_empty` continuation (which captured `file_count`); `raw` is
a bare edit batch - what the registry actually holds after line 81 rebinds
`to_be_renamed` to the remaining `changes` dict. -/
inductive RegEntry where
  | item (changes : List TextEdit) (file_count : Nat)
  | raw (changes : List TextEdit)
deriving DecidableEq

/-- The argument shapes passed to `run_command("lsp_apply_document_edit", _)`:
edit.py line 68 passes the bare edit list (binding no parameter of
`LspApplyDocumentEditCommand.run`), on_load (line 42) passes a `file_name`
argument, and completion.py line 95 passes a `changes` argument. -/
inductive CmdArgs where
  | rawBatch (changes : List TextEdit)
  | fileNameArg (fn : String)
  | changesArg (changes : List TextEdit)
deriving DecidableEq

/-- The host window: the file names of the open views (in window order) and
its `is_valid()` flag. -/
structure Window where
  views : List String
  valid : Bool
deriving DecidableEq

/-- Observable outcome of one `apply_workspace_edit` call. -/
structure CoordResult where
  registry : List (String × RegEntry)
  callbackCount : Nat
  statusMessages : List String
  commands : List CmdArgs
  opened : List String
deriving DecidableEq

/-- The message of `do_status_message` (edit.py lines 56-59). -/
def statusMessage (n : Nat) : String :=
  "Applied edits to " ++ toString n ++ " file" ++ (if n == 1 then "" else "s")

/-- The loop over open views (edit.py lines 61-70): for each view, the first
entry of `changes` naming the same file is run as a command (with the bare
list as arguments, line 68) and popped from `changes`. -/
def viewsLoop : List String → List (String × List TextEdit) →
    List (String × List TextEdit) × List CmdArgs
  | [], cs => (cs, [])
  | v :: vs, cs =>
    match cs.find? (fun p => samefile v p.1) with
    | some p =>
      let rest := viewsLoop vs (cs.eraseP (fun q => q.1 == p.1))
      (rest.1, CmdArgs.rawBatch p.2 :: rest.2)
    | none => viewsLoop vs cs

/-- Embeds `apply_workspace_edit` (edit.py lines 46-85).  An empty (or absent)
`changes` invokes the callback at once (lines 51-53).  Otherwise edits for
already-open views are dispatched and popped (lines 61-70); if nothing
remains, only the status message is shown (lines 84-85: `callback()` is not
invoked there); if entries remain, `_RenameItem`s are written and then line 81
rebinds the registry to the remaining raw `changes` dict (discarding both the
items just written and any prior registry content), and each remaining file is
opened (lines 71-83). -/
def apply_workspace_edit (w : Window) (reg : List (String × RegEntry))
    (changes : Option (List (String × List TextEdit))) : CoordResult :=
  let cs := changes.getD []
  if cs.isEmpty then
    { registry := reg, callbackCount := 1, statusMessages := [],
      commands := [], opened := [] }
  else
    let file_count := cs.length
    let looped := viewsLoop w.views cs
    if looped.1.isEmpty then
      { registry := reg, callbackCount := 0,
        statusMessages := if w.valid then [statusMessage file_count] else [],
        commands := looped.2, opened := [] }
    else
      { registry := looped.1.map (fun p => (p.1, RegEntry.raw p.2)),
        callbackCount := 0, statusMessages := [], commands := looped.2,
        opened := looped.1.map (fun p => p.1) }

/-- The Python AttributeError raised at edit.py line 98 when the popped
registry entry is a bare list (after line 81) rather than a `_RenameItem`. -/
def attributeErrorMsg : String :=
  "AttributeError: list object has no attribute changes"

/-- Pops the entry of the first key naming the same file, as
`to_be_renamed.pop(file_name)` does at edit.py line 97. -/
def registryPop (reg : List (String × RegEntry)) (fn : String) :
    Option (RegEntry × List (String × RegEntry)) :=
  match reg.find? (fun p => p.1 == fn) with
  | some p => some (p.2, reg.eraseP (fun q => q.1 == p.1))
  | none => none

/-- Observable outcome of one `on_load` event. -/
structure LoadResult where
  registry : List (String × RegEntry)
  callbackCount : Nat
  statusMessages : List String
deriving DecidableEq

/-- Embeds `ApplyEditListener.on_load` (edit.py lines 35-43) composed with the
`file_name` branch of `LspApplyDocumentEditCommand.run` (lines 93-99 and
116-117): when the loaded file has a registry entry, the command pops it; a
`_RenameItem` has its edits applied and its `run_callback_when_empty` callback
run (lines 74-77: status and callback fire only once the registry is empty),
while a bare list raises AttributeError at `rename_item.changes` (line 98). -/
def on_load (w : Window) (reg : List (String × RegEntry)) (file_name : String) :
    Except String LoadResult :=
  match reg.find? (fun p => samefile file_name p.1) with
  | none => Except.ok { registry := reg, callbackCount := 0, statusMessages := [] }
  | some p =>
    match registryPop reg p.1 with
    | none => Except.ok { registry := reg, callbackCount := 0, statusMessages := [] }
    | some q =>
      match q.1 with
      | RegEntry.raw _ => Except.error attributeErrorMsg
      | RegEntry.item _ file_count =>
        if q.2.isEmpty then
          Except.ok { registry := q.2, callbackCount := 1,
                      statusMessages :=
                        if w.valid then [statusMessage file_count] else [] }
        else
          Except.ok { registry := q.2, callbackCount := 0, statusMessages := [] }

example :
    apply_workspace_edit ⟨["a.txt"], true⟩ []
      (some [("a.txt", [⟨(0, 0), (0, 0), "x".toList, none⟩])]) =
    { registry := [], callbackCount := 0,
      statusMessages := ["Applied edits to 1 file"],
      commands := [CmdArgs.rawBatch [⟨(0, 0), (0, 0), "x".toList, none⟩]],
      opened := [] } := by rfl

example :
    apply_workspace_edit ⟨[], true⟩ []
      (some [("b.txt", [⟨(0, 0), (0, 0), "x".toList, none⟩])]) =
    { registry := [("b.txt", RegEntry.raw [⟨(0, 0), (0, 0), "x".toList, none⟩])],
      callbackCount := 0, statusMessages := [], commands := [],
      opened := ["b.txt"] } := by rfl

example :
    on_load ⟨[], true⟩ [("b.txt", RegEntry.raw [⟨(0, 0), (0, 0), "x".toList, none⟩])]
      "b.txt" = Except.error attributeErrorMsg := by rfl

/-!
The completion command collaborators (completion.py).
-/

/-- Embeds `sublime.Region` as used by the multi-cursor translator
(completion.py lines 130-139): selection regions and translated regions carry
possibly-negative points, `b` being the cursor position of a selection. -/
structure SelRegion where
  a : Int
  b : Int
deriving DecidableEq

/-- Embeds `LspCompleteTextEditCommand.translated_regions` (completion.py
lines 130-139): with the primary cursor position taken from the first
selection region, yield, for each selection region in reverse order, the edit
region shifted by that region's cursor offset from the primary.  An empty
selection raises IndexError at `selection[0]` (modelled as `none`; the host
guarantees at least one selection region). -/
def translated_regions (selection : List SelRegion) (edit_region : SelRegion) :
    Option (List SelRegion) :=
  match selection with
  | [] => none
  | s0 :: _ =>
    some (selection.reverse.map (fun region =>
      ⟨edit_region.a + (region.b - s0.b), edit_region.b + (region.b - s0.b)⟩))

example :
    translated_regions [⟨10, 10⟩, ⟨20, 20⟩, ⟨30, 30⟩] ⟨5, 8⟩ =
    some [⟨25, 28⟩, ⟨15, 18⟩, ⟨5, 8⟩] := by rfl

/-- A completion-resolve response item: its optional `detail` and
`documentation` fields (completion.py lines 70-72). -/
structure ResolveItem where
  detail : Option String
  documentation : Option String

/-- Python's `item.get(key) or ""`: an absent field collapses to the empty
string (and a present empty string stays empty). -/
def orEmpty : Option String → String
  | none => ""
  | some s => s

/-- The fixed fallback markup of completion.py line 74. -/
def placeholderDoc : String := "<i>No documentation available.</i>"

/-- The `detail` local of `handle_resolve_response` (completion.py lines 68
and 71): empty when the response is absent, otherwise the formatted `detail`
field. -/
def resolvedDetail (minihtml : String → String) (item : Option ResolveItem) : String :=
  match item with
  | some it => minihtml (orEmpty it.detail)
  | none => ""

/-- The `documentation` local of `handle_resolve_response` before the
fallback (completion.py lines 69 and 72). -/
def resolvedDocumentation (minihtml : String → String) (item : Option ResolveItem) :
    String :=
  match item with
  | some it => minihtml (orEmpty it.documentation)
  | none => ""

/-- Embeds `LspResolveDocsCommand.get_content` (completion.py lines 37-43). -/
def get_content (is_detail_shown : Bool) (documentation detail : String) : String :=
  (if detail ≠ "" ∧ is_detail_shown = false then
    "<div class=\x27highlight\x27>" ++ detail ++ "</div>"
  else "") ++
  (if documentation ≠ "" then "<div>" ++ documentation ++ "</div>" else "")

/-- Embeds `LspResolveDocsCommand.handle_resolve_response` (completion.py
lines 67-78).  `minihtml` is the external formatter (completion.py lines
34-35), abstracted as a function parameter; `is_detail_shown` is the flag set
in `run` (line 24).  An absent response, or one whose formatted documentation
is empty, falls back to the fixed placeholder. -/
def handle_resolve_response (minihtml : String → String) (is_detail_shown : Bool)
    (item : Option ResolveItem) : String :=
  let detail := resolvedDetail minihtml item
  let documentation := resolvedDocumentation minihtml item
  let documentation :=
    if documentation = "" then placeholderDoc else documentation
  get_content is_detail_shown documentation detail

example :
    handle_resolve_response id false none =
    "<div><i>No documentation available.</i></div>" := by rfl

/-!
Counting lemmas used by the totality theorem for the document applicator.
-/

theorem countNL_append (l1 l2 : Doc) :
    countNL (l1 ++ l2) = countNL l1 + countNL l2 := by
  induction l1 with
  | nil => simp [countNL]
  | cons c cs ih => simp [countNL, ih]; omega

theorem countNL_take_le (d : Doc) {i j : Nat} (h : i ≤ j) :
    countNL (d.take i) ≤ countNL (d.take j) := by
  induction d generalizing i j with
  | nil => simp
  | cons c cs ih =>
    cases i with
    | zero => simp [countNL]
    | succ i =>
      cases j with
      | zero => omega
      | succ j =>
        simp only [List.take_succ_cons, countNL]
        have := ih (i := i) (j := j) (by omega)
        omega

theorem lineStart_le_length (d : Doc) (r : Nat) : lineStart d r ≤ d.length := by
  induction d generalizing r with
  | nil => cases r <;> simp [lineStart]
  | cons c cs ih =>
    cases r with
    | zero => simp [lineStart]
    | succ r =>
      simp only [lineStart, List.length_cons]
      split
      · have := ih r; omega
      · have := ih (r + 1); omega

theorem countNL_take_lineStart (d : Doc) (r : Nat) (h : r ≤ countNL d) :
    countNL (d.take (lineStart d r)) = r := by
  induction d generalizing r with
  | nil =>
    have hr : r = 0 := by simpa [countNL] using h
    subst hr
    simp [lineStart, countNL]
  | cons c cs ih =>
    cases r with
    | zero => simp [lineStart, countNL]
    | succ r =>
      by_cases hc : c = '\n'
      · have hr : r ≤ countNL cs := by
          simp [countNL, hc] at h
          omega
        simp [lineStart, hc, Nat.add_comm 1 (lineStart cs r), List.take_succ_cons,
          countNL, ih r hr]
        omega
      · have hr : r + 1 ≤ countNL cs := by
          simp [countNL, hc] at h
          omega
        simp [lineStart, hc, Nat.add_comm 1 (lineStart cs (r + 1)), List.take_succ_cons,
          countNL, ih (r + 1) hr]

theorem rowcol_length_fst (d : Doc) : (rowcol d d.length).1 = countNL d := by
  simp [rowcol]

theorem countNL_take_text_point (d : Doc) (r c : Nat) :
    min r (countNL d) ≤ countNL (d.take (text_point_utf16 d r c)) := by
  unfold text_point_utf16
  by_cases h : countNL d < r
  · rw [if_pos h, List.take_length]
    omega
  · rw [if_neg h]
    have hr : r ≤ countNL d := by omega
    have h1 : lineStart d r ≤ min (lineStart d r + c) d.length := by
      have := lineStart_le_length d r
      omega
    have h2 := countNL_take_le d h1
    rw [countNL_take_lineStart d r hr] at h2
    omega

theorem apply_change_eq (d : Doc) (r : Region) (s : List Char) :
    apply_change d r s = d.take r.first ++ s ++ d.drop r.last := by
  unfold apply_change viewInsert viewReplace viewErase Region.isEmpty Region.first Region.last
  by_cases hab : r.a = r.b
  · simp [hab]
  · simp only [beq_iff_eq, hab, if_false]
    by_cases hs : 0 < s.length
    · simp [hs]
    · have hnil : s = [] := by
        cases s with
        | nil => rfl
        | cons x xs => simp at hs
      simp [hs, hnil]

theorem countNL_apply_change (d : Doc) (r : Region) (s : List Char) :
    countNL (apply_change d r s) =
      countNL (d.take r.first) + countNL s + countNL (d.drop r.last) := by
  rw [apply_change_eq, countNL_append, countNL_append]

theorem regionNL_lower (d : Doc) (e : TextEdit) (hre : e.start.1 ≤ e.endPos.1) :
    min e.start.1 (countNL d) ≤ countNL (d.take (editRegion d e).first) := by
  unfold editRegion Region.first
  rcases min_cases (text_point_utf16 d e.start.1 e.start.2)
      (text_point_utf16 d e.endPos.1 e.endPos.2) with ⟨heq, _⟩ | ⟨heq, _⟩ <;>
    simp only [heq]
  · exact countNL_take_text_point d e.start.1 e.start.2
  · have h2 := countNL_take_text_point d e.endPos.1 e.endPos.2
    omega

theorem applyStep_beyond (st : RunState) (e : TextEdit) (c : Char) (rest : List Char)
    (hbr : st.lastRow < e.start.1) (htext : e.newText = c :: rest) :
    applyStep st e =
      if c = '\n' then
        Except.ok { st with doc := apply_change st.doc (editRegion st.doc e) (c :: rest) }
      else
        let d := apply_change st.doc (editRegion st.doc e) ('\n' :: c :: rest)
        let rc := rowcol d d.length
        Except.ok { doc := d, lastRow := rc.1, lastCol := rc.2, log := st.log } := by
  unfold applyStep
  rw [if_pos hbr, htext]

theorem applyStep_inline (st : RunState) (e : TextEdit)
    (hbr : ¬ st.lastRow < e.start.1) :
    applyStep st e =
      Except.ok { st with doc := apply_change st.doc (editRegion st.doc e) e.newText } := by
  unfold applyStep
  rw [if_neg hbr]

theorem applyStep_step (v0 : Nat) (st : RunState) (e : TextEdit)
    (hre : e.start.1 ≤ e.endPos.1)
    (hemp : e.newText = [] → e.start.1 ≤ v0)
    (hrow : v0 ≤ st.lastRow)
    (hcnt : min v0 e.start.1 ≤ countNL st.doc) :
    ∃ st', applyStep st e = Except.ok st'
      ∧ v0 ≤ st'.lastRow
      ∧ min v0 e.start.1 ≤ countNL st'.doc := by
  have hr1 := regionNL_lower st.doc e hre
  by_cases hbr : st.lastRow < e.start.1
  · cases htext : e.newText with
    | nil =>
      have := hemp htext
      omega
    | cons c rest =>
      have heq := applyStep_beyond st e c rest hbr htext
      by_cases hc : c = '\n'
      · rw [if_pos hc] at heq
        refine ⟨_, heq, hrow, ?_⟩
        rw [countNL_apply_change]
        omega
      · rw [if_neg hc] at heq
        refine ⟨_, heq, ?_, ?_⟩ <;>
          simp only [rowcol_length_fst, countNL_apply_change, countNL] <;>
          omega
  · refine ⟨_, applyStep_inline st e hbr, hrow, ?_⟩
    rw [countNL_apply_change]
    omega

theorem processEdit_step (vv v0 : Nat) (st : RunState) (e : TextEdit)
    (hre : e.start.1 ≤ e.endPos.1)
    (hemp : e.newText = [] → e.start.1 ≤ v0)
    (hrow : v0 ≤ st.lastRow)
    (hcnt : min v0 e.start.1 ≤ countNL st.doc) :
    ∃ st', processEdit vv st e = Except.ok st'
      ∧ v0 ≤ st'.lastRow
      ∧ min v0 e.start.1 ≤ countNL st'.doc := by
  cases hv : e.version with
  | none =>
    have heq : processEdit vv st e = applyStep st e := by
      unfold processEdit
      rw [hv]
    rw [heq]
    exact applyStep_step v0 st e hre hemp hrow hcnt
  | some v =>
    have heq : processEdit vv st e =
        if v ≠ vv then Except.ok { st with log := debugMsg :: st.log }
        else applyStep st e := by
      unfold processEdit
      rw [hv]
    by_cases hne : v ≠ vv
    · rw [if_pos hne] at heq
      exact ⟨_, heq, hrow, hcnt⟩
    · rw [if_neg hne] at heq
      rw [heq]
      exact applyStep_step v0 st e hre hemp hrow hcnt

theorem runEdits_total (vv v0 : Nat) (es : List TextEdit) :
    ∀ st : RunState,
      es.Pairwise (fun a b => b.start.1 ≤ a.start.1) →
      (∀ f ∈ es, f.start.1 ≤ f.endPos.1) →
      (∀ f ∈ es, f.newText = [] → f.start.1 ≤ v0) →
      v0 ≤ st.lastRow →
      (∀ f ∈ es, min v0 f.start.1 ≤ countNL st.doc) →
      ∃ st', runEdits vv st es = Except.ok st' := by
  induction es with
  | nil => exact fun st _ _ _ _ _ => ⟨st, rfl⟩
  | cons e es ih =>
    intro st hpw hre hemp hrow hcnt
    rw [List.pairwise_cons] at hpw
    obtain ⟨hhead, htail⟩ := hpw
    obtain ⟨st1, hok, hrow1, hcnt1⟩ :=
      processEdit_step vv v0 st e (hre e (by simp)) (hemp e (by simp)) hrow
        (hcnt e (by simp))
    obtain ⟨st2, hok2⟩ := ih st1 htail
      (fun f hf => hre f (by simp [hf]))
      (fun f hf => hemp f (by simp [hf]))
      hrow1
      (fun f hf => by
        have hle := hhead f hf
        omega)
    refine ⟨st2, ?_⟩
    unfold runEdits
    rw [hok]
    exact hok2

theorem editLE_row {a b : TextEdit} (h : editLE a b) : a.start.1 ≤ b.start.1 := by
  unfold editLE at h
  omega

theorem apply_document_edit_total (vv : Nat) (d : Doc) (changes : List TextEdit)
    (hre : ∀ e ∈ changes, e.start.1 ≤ e.endPos.1)
    (hemp : ∀ e ∈ changes, e.newText = [] → e.start.1 ≤ (rowcol_utf16 d d.length).1) :
    ∃ st, apply_document_edit vv d changes = Except.ok st := by
  have hv0 : (rowcol_utf16 d d.length).1 = countNL d := rowcol_length_fst d
  have hmem : ∀ f ∈ (sort_by_application_order changes).reverse, f ∈ changes := by
    intro f hf
    rw [List.mem_reverse] at hf
    exact (List.mem_insertionSort editLE).mp hf
  have hpw : ((sort_by_application_order changes).reverse).Pairwise
      (fun a b => b.start.1 ≤ a.start.1) := by
    rw [List.pairwise_reverse]
    exact (List.sorted_insertionSort editLE changes).imp editLE_row
  unfold apply_document_edit
  apply runEdits_total vv (countNL d) _ _ hpw
  · exact fun f hf => hre f (hmem f hf)
  · intro f hf hnil
    have := hemp f (hmem f hf) hnil
    omega
  · simp [hv0]
  · intro f _
    exact Nat.min_le_left _ _

theorem processEdit_version_match (vv : Nat) (st : RunState) (e : TextEdit)
    (h : e.version = none ∨ e.version = some vv) :
    processEdit vv st e = applyStep st e := by
  rcases h with h | h
  · unfold processEdit
    rw [h]
  · have heq : processEdit vv st e =
        if vv ≠ vv then Except.ok { st with log := debugMsg :: st.log }
        else applyStep st e := by
      unfold processEdit
      rw [h]
    rw [heq, if_neg (by omega)]

theorem processEdit_version_mismatch (vv v : Nat) (st : RunState) (e : TextEdit)
    (hv : e.version = some v) (hne : v ≠ vv) :
    processEdit vv st e = Except.ok { st with log := debugMsg :: st.log } := by
  have heq : processEdit vv st e =
      if v ≠ vv then Except.ok { st with log := debugMsg :: st.log }
      else applyStep st e := by
    unfold processEdit
    rw [hv]
  rw [heq, if_pos hne]

/-!
The claims.
-/

/-- A sample one-character insertion edit used in concrete scenarios. -/
def edit0 : TextEdit := ⟨(0, 0), (0, 0), "x".toList, none⟩

/-- C1: the claim states that `onComplete` fires exactly once per
`apply_workspace_edit` call, after every file named in `changes` has had its
edits applied.  The code violates this: when every named file is already open,
the `else` branch at edit.py line 85 shows the status message but never
invokes the callback (callback count stays 0); and in the deferred path,
line 81 rebinds the registry to the raw `changes` dict, so the `on_load`
drain pops a bare list and raises AttributeError at `rename_item.changes`
(line 98) - the callback again never fires. -/
theorem claim_C1_callback_never_fires :
    (apply_workspace_edit ⟨["a.txt"], true⟩ [] (some [("a.txt", [edit0])])).callbackCount = 0
    ∧ (apply_workspace_edit ⟨[], true⟩ [] (some [("b.txt", [edit0])])).callbackCount = 0
    ∧ (apply_workspace_edit ⟨[], true⟩ [] (some [("b.txt", [edit0])])).opened = ["b.txt"]
    ∧ on_load ⟨[], true⟩
        (apply_workspace_edit ⟨[], true⟩ [] (some [("b.txt", [edit0])])).registry
        "b.txt" = Except.error attributeErrorMsg := by
  refine ⟨rfl, rfl, rfl, rfl⟩

/-- C2: an edit whose `sourceVersion` is present and differs from the captured
view version is skipped with a debug log entry and leaves the buffer
untouched; an edit whose version matches, or is absent, goes on to the
application step and mutates the buffer through `apply_change`.  The closed
conjuncts run the full applicator on a version-V document with edits at
version V-1 (skipped, buffer unchanged, logged), version V (applied), and no
version (applied). -/
theorem claim_C2_version_guard (vv : Nat) (st : RunState) (e : TextEdit) :
    (∀ v, e.version = some v → v ≠ vv →
        processEdit vv st e = Except.ok { st with log := debugMsg :: st.log })
    ∧ (e.version = none ∨ e.version = some vv → processEdit vv st e = applyStep st e)
    ∧ apply_document_edit 7 ("abc".toList) [⟨(0, 0), (0, 1), "X".toList, some 6⟩]
        = Except.ok ⟨"abc".toList, 0, 3, [debugMsg]⟩
    ∧ apply_document_edit 7 ("abc".toList) [⟨(0, 0), (0, 1), "X".toList, some 7⟩]
        = Except.ok ⟨"Xbc".toList, 0, 3, []⟩
    ∧ apply_document_edit 7 ("abc".toList) [⟨(0, 0), (0, 1), "X".toList, none⟩]
        = Except.ok ⟨"Xbc".toList, 0, 3, []⟩ := by
  refine ⟨?_, ?_, rfl, rfl, rfl⟩
  · intro v hv hne
    exact processEdit_version_mismatch vv v st e hv hne
  · intro h
    exact processEdit_version_match vv st e h

theorem claim_C2_version_guard_witness :
    processEdit 7 ⟨"abc".toList, 0, 3, []⟩ ⟨(0, 0), (0, 1), "X".toList, some 6⟩
      = Except.ok ⟨"abc".toList, 0, 3, [debugMsg]⟩
    ∧ processEdit 7 ⟨"abc".toList, 0, 3, []⟩ ⟨(0, 0), (0, 1), "X".toList, none⟩
      = applyStep ⟨"abc".toList, 0, 3, []⟩ ⟨(0, 0), (0, 1), "X".toList, none⟩ :=
  ⟨(claim_C2_version_guard 7 ⟨"abc".toList, 0, 3, []⟩ _).1 6 rfl (by omega),
   (claim_C2_version_guard 7 ⟨"abc".toList, 0, 3, []⟩ _).2.1 (Or.inl rfl)⟩

/-- C3: a (non-skipped) edit whose start line is strictly greater than the
captured last row, and whose replacement does not begin with a newline, is
applied with a newline prepended, and the captured end-of-document position is
refreshed from the mutated buffer; in particular applying the edit at
(line 1, character 0) with replacement "def" to the one-line document "abc"
yields "abc\ndef". -/
theorem claim_C3_beyond_end_newline (vv : Nat) (st : RunState) (e : TextEdit)
    (c : Char) (rest : List Char)
    (hver : e.version = none ∨ e.version = some vv)
    (hbr : st.lastRow < e.start.1)
    (htext : e.newText = c :: rest)
    (hc : c ≠ '\n') :
    (processEdit vv st e =
      (let d := apply_change st.doc (editRegion st.doc e) ('\n' :: c :: rest)
       let rc := rowcol d d.length
       Except.ok { doc := d, lastRow := rc.1, lastCol := rc.2, log := st.log }))
    ∧ apply_document_edit 0 ("abc".toList) [⟨(1, 0), (1, 0), "def".toList, none⟩]
        = Except.ok ⟨"abc\ndef".toList, 1, 3, []⟩ := by
  refine ⟨?_, rfl⟩
  rw [processEdit_version_match vv st e hver,
    applyStep_beyond st e c rest hbr htext, if_neg hc]

theorem claim_C3_beyond_end_newline_witness :
    processEdit 0 ⟨"abc".toList, 0, 3, []⟩ ⟨(1, 0), (1, 0), "def".toList, none⟩
      = Except.ok ⟨"abc\ndef".toList, 1, 3, []⟩ :=
  (claim_C3_beyond_end_newline 0 ⟨"abc".toList, 0, 3, []⟩
    ⟨(1, 0), (1, 0), "def".toList, none⟩ 'd' ("ef".toList)
    (Or.inl rfl) (by decide) rfl (by decide)).1

/-- C4 as stated is false: an edit with empty replacement text targeting a
position beyond the captured last line makes the applicator evaluate
`replacement[0]` (edit.py line 109) on an empty string, raising IndexError. -/
theorem claim_C4_counterexample :
    apply_document_edit 0 ("abc".toList) [⟨(1, 0), (1, 0), [], none⟩]
      = Except.error indexErrorMsg := rfl

/-- C4 (amended): for every document and edit batch with valid positions
(start row at most end row), `apply_document_edit` completes without raising -
the only failure mode being the silent version-skip path - provided every edit
with empty replacement text starts at a line no greater than the captured last
line; the excluded case (empty replacement beyond the captured last line)
raises IndexError. -/
theorem claim_C4_apply_edits_total (vv : Nat) (d : Doc) (changes : List TextEdit)
    (hre : ∀ e ∈ changes, e.start.1 ≤ e.endPos.1)
    (hemp : ∀ e ∈ changes, e.newText = [] → e.start.1 ≤ (rowcol_utf16 d d.length).1) :
    ∃ st, apply_document_edit vv d changes = Except.ok st :=
  apply_document_edit_total vv d changes hre hemp

theorem claim_C4_apply_edits_total_witness :
    (∀ e ∈ [(⟨(0, 0), (0, 1), [], none⟩ : TextEdit)], e.start.1 ≤ e.endPos.1)
    ∧ (∀ e ∈ [(⟨(0, 0), (0, 1), [], none⟩ : TextEdit)],
        e.newText = [] → e.start.1 ≤ (rowcol_utf16 ("abc".toList) ("abc".toList).length).1)
    ∧ ∃ st, apply_document_edit 5 ("abc".toList) [⟨(0, 0), (0, 1), [], none⟩]
        = Except.ok st :=
  ⟨by decide, by decide,
   claim_C4_apply_edits_total 5 ("abc".toList) [⟨(0, 0), (0, 1), [], none⟩]
     (by decide) (by decide)⟩

/-- C5: the multi-cursor translator yields exactly one region per selection,
in reverse selection order, each being the edit region with both endpoints
shifted by that selection's cursor offset from the primary (first) selection's
cursor. -/
theorem claim_C5_multi_cursor_translation (s0 : SelRegion) (rest : List SelRegion)
    (edit_region : SelRegion) :
    ∃ out, translated_regions (s0 :: rest) edit_region = some out
      ∧ out.length = (s0 :: rest).length
      ∧ ∀ i, i < out.length →
          out[i]? = ((s0 :: rest).reverse[i]?).map (fun s =>
            SelRegion.mk (edit_region.a + (s.b - s0.b))
              (edit_region.b + (s.b - s0.b))) := by
  refine ⟨_, rfl, by simp [translated_regions], ?_⟩
  intro i hi
  rw [List.getElem?_map]

theorem claim_C5_multi_cursor_translation_witness :
    translated_regions [⟨10, 10⟩, ⟨20, 20⟩, ⟨30, 30⟩] (⟨5, 8⟩ : SelRegion)
      = some [⟨25, 28⟩, ⟨15, 18⟩, ⟨5, 8⟩] := by
  obtain ⟨out, h1, h2, h3⟩ :=
    claim_C5_multi_cursor_translation ⟨10, 10⟩ [⟨20, 20⟩, ⟨30, 30⟩] ⟨5, 8⟩
  have hout : some ([⟨25, 28⟩, ⟨15, 18⟩, ⟨5, 8⟩] : List SelRegion) = some out := h1
  rw [h1, Option.some.inj hout]

/-- C6: the claim states that when the changes map is empty after applying
edits to the already-open documents, the coordinator reports "Applied edits to
N files" and invokes `onComplete`.  The code violates the second half: the
`else` branch at edit.py lines 84-85 calls only `do_status_message()`, never
`callback()`.  With two open files named in the batch, the status message is
shown but the callback count stays 0. -/
theorem claim_C6_status_without_callback :
    (apply_workspace_edit ⟨["a.txt", "b.txt"], true⟩ []
        (some [("a.txt", [edit0]), ("b.txt", [edit0])])).statusMessages
      = ["Applied edits to 2 files"]
    ∧ (apply_workspace_edit ⟨["a.txt", "b.txt"], true⟩ []
        (some [("a.txt", [edit0]), ("b.txt", [edit0])])).callbackCount = 0 :=
  ⟨rfl, rfl⟩

/-- C7: `apply_change` follows region semantics exactly, stated at the level
of buffer contents: an empty region inserts the replacement at that position,
a non-empty region with non-empty replacement replaces the covered span, and
a non-empty region with empty replacement deletes the covered span. -/
theorem claim_C7_region_semantics (d : Doc) (r : Region) (s : List Char) :
    (r.a = r.b → apply_change d r s = d.take r.a ++ s ++ d.drop r.a)
    ∧ (r.a ≠ r.b → s ≠ [] →
        apply_change d r s = d.take r.first ++ s ++ d.drop r.last)
    ∧ (r.a ≠ r.b → apply_change d r [] = d.take r.first ++ d.drop r.last) := by
  refine ⟨?_, ?_, ?_⟩
  · intro hab
    rw [apply_change_eq]
    unfold Region.first Region.last
    rw [hab, Nat.min_self, Nat.max_self]
  · intro _ _
    exact apply_change_eq d r s
  · intro _
    rw [apply_change_eq]
    simp

theorem claim_C7_region_semantics_witness :
    apply_change ("abcde".toList) ⟨2, 2⟩ ("Z".toList) = "abZcde".toList
    ∧ apply_change ("abcde".toList) ⟨1, 3⟩ ("XY".toList) = "aXYde".toList
    ∧ apply_change ("abcde".toList) ⟨1, 3⟩ [] = "ade".toList :=
  ⟨((claim_C7_region_semantics ("abcde".toList) ⟨2, 2⟩ ("Z".toList)).1 rfl).trans rfl,
   ((claim_C7_region_semantics ("abcde".toList) ⟨1, 3⟩ ("XY".toList)).2.1
     (by decide) (by decide)).trans rfl,
   ((claim_C7_region_semantics ("abcde".toList) ⟨1, 3⟩ ("XY".toList)).2.2
     (by decide)).trans rfl⟩

/-- C8: an empty (or absent) changes map makes `apply_workspace_edit` invoke
the callback once, synchronously, with no command dispatched (hence no
document mutation), no status message, no file opened, and the registry
untouched. -/
theorem claim_C8_empty_batch (w : Window) (reg : List (String × RegEntry)) :
    apply_workspace_edit w reg none =
      { registry := reg, callbackCount := 1, statusMessages := [],
        commands := [], opened := [] }
    ∧ apply_workspace_edit w reg (some []) =
      { registry := reg, callbackCount := 1, statusMessages := [],
        commands := [], opened := [] } :=
  ⟨rfl, rfl⟩

/-- C9: when the completion-resolve response is absent, or yields no
documentation content, the popup content is built from the fixed
"No documentation available." placeholder; in particular the content ends
with the placeholder's div and the handler returns normally (non-fatal). -/
theorem claim_C9_resolve_fallback (minihtml : String → String) (flag : Bool)
    (item : Option ResolveItem)
    (h : resolvedDocumentation minihtml item = "") :
    handle_resolve_response minihtml flag item
      = get_content flag placeholderDoc (resolvedDetail minihtml item)
    ∧ ∃ s, handle_resolve_response minihtml flag item
        = s ++ ("<div>" ++ placeholderDoc ++ "</div>") := by
  have h1 : handle_resolve_response minihtml flag item
      = get_content flag placeholderDoc (resolvedDetail minihtml item) := by
    unfold handle_resolve_response
    rw [h]
    rfl
  refine ⟨h1, ?_, ?_⟩
  · exact if resolvedDetail minihtml item ≠ "" ∧ flag = false then
      "<div class=\x27highlight\x27>" ++ resolvedDetail minihtml item ++ "</div>"
    else ""
  · rw [h1]
    unfold get_content
    rw [if_pos (show placeholderDoc ≠ "" by decide)]

theorem claim_C9_resolve_fallback_witness :
    resolvedDocumentation id none = ""
    ∧ handle_resolve_response id false none
        = get_content false placeholderDoc (resolvedDetail id none)
    ∧ ∃ s, handle_resolve_response id false none
        = s ++ ("<div>" ++ placeholderDoc ++ "</div>") :=
  ⟨rfl, (claim_C9_resolve_fallback id false none rfl).1,
   (claim_C9_resolve_fallback id false none rfl).2⟩

/-- C10: every region yielded by the multi-cursor translator has exactly the
same width as the input edit region - shifting both endpoints by the same
per-selection offset preserves region width. -/
theorem claim_C10_translation_preserves_width (sel : List SelRegion)
    (edit_region : SelRegion) (out : List SelRegion)
    (h : translated_regions sel edit_region = some out) :
    ∀ q ∈ out, q.b - q.a = edit_region.b - edit_region.a := by
  cases sel with
  | nil => simp [translated_regions] at h
  | cons s0 rest =>
    have hout : some ((s0 :: rest).reverse.map (fun region =>
        SelRegion.mk (edit_region.a + (region.b - s0.b))
          (edit_region.b + (region.b - s0.b)))) = some out := h
    rw [← Option.some.inj hout]
    intro q hq
    rw [List.mem_map] at hq
    obtain ⟨s, _, rfl⟩ := hq
    show edit_region.b + (s.b - s0.b) - (edit_region.a + (s.b - s0.b))
      = edit_region.b - edit_region.a
    omega

theorem claim_C10_translation_preserves_width_witness :
    translated_regions [⟨1, 3⟩] (⟨5, 8⟩ : SelRegion) = some [⟨5, 8⟩]
    ∧ ∀ q ∈ [(⟨5, 8⟩ : SelRegion)], q.b - q.a = (8 : Int) - 5 :=
  ⟨rfl, claim_C10_translation_preserves_width [⟨1, 3⟩] ⟨5, 8⟩ [⟨5, 8⟩] rfl⟩
